import Mathlib

/-!
Shallow embedding of the `LibraryManager` class of `src/app.js` (a small
library circulation tracker: books, students, active loans, loan history).

Modelling conventions:
* JS Date values (`Date.now()`, `new Date()`) are abstract clock ticks `t : Nat`
  supplied to each operation as an explicit parameter; `dueDate.setDate(getDate()+days)`
  becomes `t + days` on the abstract clock.
* `Date.now().toString()` (ids of students and loans) becomes `Nat.repr t`.
* A thrown `Error` message is one of the seven error kinds of `LibError`;
  each fallible operation returns `Res α × State`, where the second component
  is the in-memory state after the call (equal to the input state whenever the
  source throws, since the source performs no writes before its checks — this
  is exactly what the frame theorems below establish, not an assumption).
* `localStorage` persistence (`saveData`) has no effect on the in-memory
  collections and is not modelled.
* JS truthiness of the optional inputs: a missing field is `none`; the falsy
  values `''` (for `bookData.id`) and `0` (for `studentData.number`) trigger
  the `||` fallback exactly as in the source.
* `Array.prototype.sort` with comparator `(a, b) => a.number - b.number` is
  modelled by an insertion sort with `a.number ≤ b.number`.
-/

namespace LibraryApp

/-- Book status: the source only ever stores the strings available and loaned. -/
inductive Status where
  | available
  | loaned
deriving DecidableEq, Repr

/-- A book record (src/app.js addBook). -/
structure Book where
  id : String
  title : String
  author : String
  publisher : String
  status : Status
  addedDate : Nat
deriving DecidableEq, Repr

/-- A student record (src/app.js addStudent). -/
structure Student where
  id : String
  number : Nat
  name : String
  addedDate : Nat
deriving DecidableEq, Repr

/-- An active loan record (src/app.js loanBook). -/
structure Loan where
  id : String
  bookId : String
  studentId : String
  loanDate : Nat
  dueDate : Nat
  note : String
deriving DecidableEq, Repr

/-- A closed loan: all Loan fields plus returnDate (src/app.js returnBook). -/
structure HistoryEntry where
  id : String
  bookId : String
  studentId : String
  loanDate : Nat
  dueDate : Nat
  note : String
  returnDate : Nat
deriving DecidableEq, Repr

/-- The four collections owned by LibraryManager. -/
structure State where
  books : List Book
  students : List Student
  loans : List Loan
  loanHistory : List HistoryEntry
deriving DecidableEq, Repr

/-- The error taxonomy (the seven thrown messages of src/app.js). -/
inductive LibError where
  | duplicateId
  | bookOnLoan
  | bookNotFound
  | studentNotFound
  | bookAlreadyLoaned
  | loanNotFound
  | studentHasActiveLoans
deriving DecidableEq, Repr

/-- Result of a fallible operation: the returned value or the thrown error. -/
inductive Res (α : Type) where
  | ok (val : α)
  | error (e : LibError)
deriving DecidableEq, Repr

/-- Whether the operation returned without throwing. -/
def Res.isOk {α : Type} : Res α → Bool
  | .ok _ => true
  | .error _ => false

/-- The state of a freshly constructed LibraryManager with empty storage. -/
def emptyState : State := { books := [], students := [], loans := [], loanHistory := [] }

/-- Caller input to addBook (missing fields are none; the source treats a
falsy id, i.e. the empty string, like a missing one). -/
structure BookInput where
  id : Option String
  title : String
  author : Option String
  publisher : Option String
deriving DecidableEq, Repr

/-- Caller input to addStudent. -/
structure StudentInput where
  number : Option Nat
  name : String
deriving DecidableEq, Repr

/-- Numeric suffix of a book id matching the regex B followed by one or more
digits and nothing else (src/app.js generateBookId); parseInt on a digit
string is its decimal value. -/
def bookIdNum (s : String) : Option Nat :=
  match s.data with
  | [] => none
  | c :: ds =>
    if c = 'B' ∧ ds ≠ [] ∧ ds.all Char.isDigit then
      some (ds.foldl (fun n d => 10 * n + (d.toNat - 48)) 0)
    else none

/-- String.padStart(3, zero) of the source. -/
def pad3 (s : String) : String :=
  if s.length ≥ 3 then s else String.mk (List.replicate (3 - s.length) '0') ++ s

/-- src/app.js generateBookId: scan ids matching B + digits, take the maximal
numeric suffix (0 when none matches), increment and zero-pad to 3 digits. -/
def generateBookId (books : List Book) : String :=
  let maxId := books.foldl
    (fun mx b =>
      match bookIdNum b.id with
      | some n => if n > mx then n else mx
      | none => mx) 0
  "B" ++ pad3 (Nat.repr (maxId + 1))

/-- The record literal const book = { ... } built at the top of addBook:
caller id verbatim when truthy, else generated; status always available. -/
def newBook (d : BookInput) (t : Nat) (s : State) : Book :=
  { id := match d.id with
      | some i => if i = "" then generateBookId s.books else i
      | none => generateBookId s.books
    title := d.title
    author := d.author.getD ""
    publisher := d.publisher.getD ""
    status := .available
    addedDate := t }

/-- src/app.js addBook: build the record, fail with the duplicate-id error
when the id already exists, otherwise push the new book. -/
def addBook (d : BookInput) (t : Nat) (s : State) : Res Book × State :=
  if s.books.any (fun b => b.id == (newBook d t s).id) then
    (.error .duplicateId, s)
  else
    (.ok (newBook d t s), { s with books := s.books ++ [newBook d t s] })

/-- src/app.js deleteBook: throw when the (first) book with this id is loaned,
otherwise filter it out (a missing id is a silent no-op). -/
def deleteBook (bookId : String) (s : State) : Res Unit × State :=
  match s.books.find? (fun b => b.id == bookId) with
  | some b =>
    if b.status = Status.loaned then
      (.error .bookOnLoan, s)
    else
      (.ok (), { s with books := s.books.filter (fun b => !(b.id == bookId)) })
  | none =>
    (.ok (), { s with books := s.books.filter (fun b => !(b.id == bookId)) })

/-- src/app.js getBook. -/
def getBook (bookId : String) (s : State) : Option Book :=
  s.books.find? (fun b => b.id == bookId)

/-- src/app.js getStudent. -/
def getStudent (studentId : String) (s : State) : Option Student :=
  s.students.find? (fun st => st.id == studentId)

/-- src/app.js generateStudentNumber: max of existing numbers (reduce with
initial value 0) plus one. -/
def generateStudentNumber (students : List Student) : Nat :=
  (students.foldl (fun mx st => if st.number > mx then st.number else mx) 0) + 1

/-- Insert a student into a list sorted by number (helper for the comparator
sort of src/app.js addStudent). -/
def insertByNumber (x : Student) : List Student → List Student
  | [] => [x]
  | y :: ys => if x.number ≤ y.number then x :: y :: ys else y :: insertByNumber x ys

/-- The comparator sort students.sort((a, b) => a.number - b.number). -/
def sortByNumber : List Student → List Student
  | [] => []
  | y :: ys => insertByNumber y (sortByNumber ys)

/-- The record literal const student = { ... } of addStudent: id is
Date.now().toString(); number is the caller number when truthy (nonzero),
else generated. -/
def newStudent (d : StudentInput) (t : Nat) (s : State) : Student :=
  { id := Nat.repr t
    number := match d.number with
      | some n => if n = 0 then generateStudentNumber s.students else n
      | none => generateStudentNumber s.students
    name := d.name
    addedDate := t }

/-- src/app.js addStudent: build the record, push, then re-sort the whole
collection by number. The body contains no throw, so it always succeeds. -/
def addStudent (d : StudentInput) (t : Nat) (s : State) : Student × State :=
  (newStudent d t s,
    { s with students := sortByNumber (s.students ++ [newStudent d t s]) })

/-- The two result buckets of src/app.js addStudentsBulk. -/
structure BulkResult where
  success : List Student
  failed : List StudentInput
deriving DecidableEq, Repr

/-- The forEach loop of src/app.js addStudentsBulk. Each iteration runs
addStudent inside try/catch; since addStudent contains no throw path the
catch branch (pushing onto failed) is unreachable and the loop always pushes
onto success. -/
def bulkGo (ds : List StudentInput) (t : Nat) (s : State) (acc : BulkResult) :
    BulkResult × State :=
  match ds with
  | [] => (acc, s)
  | d :: rest =>
    let r := addStudent d t s
    bulkGo rest t r.2 { acc with success := acc.success ++ [r.1] }

/-- src/app.js addStudentsBulk (all iterations within one clock tick t). -/
def addStudentsBulk (ds : List StudentInput) (t : Nat) (s : State) :
    BulkResult × State :=
  bulkGo ds t s ⟨[], []⟩

/-- src/app.js deleteStudent: throw when some active loan references the
student, otherwise filter the student out. -/
def deleteStudent (studentId : String) (s : State) : Res Unit × State :=
  if s.loans.any (fun l => l.studentId == studentId) then
    (.error .studentHasActiveLoans, s)
  else
    (.ok (), { s with students := s.students.filter (fun st => !(st.id == studentId)) })

/-- The in-place mutation book.status = v of the first book found with the
given id (List.find? returns the first match; a missing id changes nothing,
which also covers the if (book) guard of the source). -/
def setFirstStatus (bookId : String) (v : Status) : List Book → List Book
  | [] => []
  | b :: bs =>
    if b.id == bookId then { b with status := v } :: bs
    else b :: setFirstStatus bookId v bs

/-- splice(loanIndex, 1) at the findIndex of the first loan with this bookId. -/
def eraseFirstLoan (bookId : String) : List Loan → List Loan
  | [] => []
  | l :: ls => if l.bookId == bookId then ls else l :: eraseFirstLoan bookId ls

/-- The record literal const loan = { ... } of loanBook: id is
Date.now().toString(), loanDate the current tick, dueDate loanDate + days. -/
def newLoan (bookId studentId : String) (days : Nat) (note : String) (t : Nat) : Loan :=
  { id := Nat.repr t
    bookId := bookId
    studentId := studentId
    loanDate := t
    dueDate := t + days
    note := note }

/-- src/app.js loanBook: book lookup, student lookup, already-loaned check (in
that order), then push the loan and flip the book status. -/
def loanBook (bookId studentId : String) (days : Nat) (note : String) (t : Nat)
    (s : State) : Res Loan × State :=
  match getBook bookId s with
  | none => (.error .bookNotFound, s)
  | some book =>
    match getStudent studentId s with
    | none => (.error .studentNotFound, s)
    | some _ =>
      if book.status = Status.loaned then
        (.error .bookAlreadyLoaned, s)
      else
        (.ok (newLoan bookId studentId days note t),
          { s with
            loans := s.loans ++ [newLoan bookId studentId days note t]
            books := setFirstStatus bookId Status.loaned s.books })

/-- The spread {...loan, returnDate} of src/app.js returnBook. -/
def closeLoan (l : Loan) (returnDate : Nat) : HistoryEntry :=
  { id := l.id
    bookId := l.bookId
    studentId := l.studentId
    loanDate := l.loanDate
    dueDate := l.dueDate
    note := l.note
    returnDate := returnDate }

/-- src/app.js returnBook: find the first loan for the book (throw when none),
append it to history with returnDate, remove it from loans, flip the book
back to available when the book record still exists. -/
def returnBook (bookId : String) (t : Nat) (s : State) : Res Loan × State :=
  match s.loans.find? (fun l => l.bookId == bookId) with
  | none => (.error .loanNotFound, s)
  | some loan =>
    (.ok loan,
      { s with
        loanHistory := s.loanHistory ++ [closeLoan loan t]
        loans := eraseFirstLoan bookId s.loans
        books := setFirstStatus bookId Status.available s.books })

/-- src/app.js deleteLoan: like returnBook but writes no history entry. -/
def deleteLoan (bookId : String) (s : State) : Res Unit × State :=
  match s.loans.find? (fun l => l.bookId == bookId) with
  | none => (.error .loanNotFound, s)
  | some _ =>
    (.ok (),
      { s with
        loans := eraseFirstLoan bookId s.loans
        books := setFirstStatus bookId Status.available s.books })

/-- The backup snapshot of src/app.js exportData; a collection absent from an
imported snapshot (a falsy field) is none. -/
structure Snapshot where
  books : Option (List Book)
  students : Option (List Student)
  loans : Option (List Loan)
  loanHistory : Option (List HistoryEntry)
  exportDate : Nat
deriving DecidableEq, Repr

/-- src/app.js exportData: all four collections are present in the snapshot. -/
def exportData (t : Nat) (s : State) : Snapshot :=
  { books := some s.books
    students := some s.students
    loans := some s.loans
    loanHistory := some s.loanHistory
    exportDate := t }

/-- src/app.js importData: wholesale-replace each collection present in the
snapshot, leave absent ones untouched. -/
def importData (d : Snapshot) (s : State) : State :=
  let s1 := match d.books with
    | some bs => { s with books := bs }
    | none => s
  let s2 := match d.students with
    | some ss => { s1 with students := ss }
    | none => s1
  let s3 := match d.loans with
    | some ls => { s2 with loans := ls }
    | none => s2
  match d.loanHistory with
  | some hs => { s3 with loanHistory := hs }
  | none => s3

/-- States reachable from the empty store by the store operations; every
constructor takes the post-state of one call (failed calls leave the state
unchanged, so including them changes nothing). -/
inductive Reachable : State → Prop where
  | base : Reachable emptyState
  | stepAddBook (d : BookInput) (t : Nat) {s : State} :
      Reachable s → Reachable (addBook d t s).2
  | stepDeleteBook (i : String) {s : State} :
      Reachable s → Reachable (deleteBook i s).2
  | stepAddStudent (d : StudentInput) (t : Nat) {s : State} :
      Reachable s → Reachable (addStudent d t s).2
  | stepDeleteStudent (i : String) {s : State} :
      Reachable s → Reachable (deleteStudent i s).2
  | stepLoanBook (bid sid : String) (days : Nat) (note : String) (t : Nat) {s : State} :
      Reachable s → Reachable (loanBook bid sid days note t s).2
  | stepReturnBook (bid : String) (t : Nat) {s : State} :
      Reachable s → Reachable (returnBook bid t s).2
  | stepDeleteLoan (bid : String) {s : State} :
      Reachable s → Reachable (deleteLoan bid s).2

/-- Number of active loans referencing a book id. -/
def loanCount (bookId : String) (ls : List Loan) : Nat :=
  (ls.filter (fun l => l.bookId == bookId)).length

/-- The store invariant: a loaned book has exactly one active loan, an
available book has none, every active loan references an existing book, and
book ids are pairwise distinct. -/
def Inv (s : State) : Prop :=
  (∀ b ∈ s.books,
      (b.status = Status.loaned → loanCount b.id s.loans = 1) ∧
      (b.status = Status.available → loanCount b.id s.loans = 0)) ∧
  (∀ l ∈ s.loans, l.bookId ∈ s.books.map Book.id) ∧
  (s.books.map Book.id).Nodup

/-! Concrete fixtures used by the closed instances below. -/

/-- A concrete available book. -/
def sampleBook (i : String) : Book :=
  { id := i, title := "T", author := "", publisher := "", status := .available, addedDate := 0 }

/-- A store reached by registering book B001 at tick 0. -/
def stateB : State := (addBook ⟨some "B001", "T", none, none⟩ 0 emptyState).2

/-- stateB after registering a student (number 1, id "1") at tick 1. -/
def stateBS : State := (addStudent ⟨some 1, "Kim"⟩ 1 stateB).2

/-- stateBS after loaning B001 to student "1" at tick 2. -/
def stateLoaned : State := (loanBook "B001" "1" 14 "" 2 stateBS).2

/-- A store holding books B001 and B003 (for the id-generation instance). -/
def stateB13 : State := { emptyState with books := [sampleBook "B001", sampleBook "B003"] }

/-- A store holding one student whose display number is 7. -/
def stateN7 : State :=
  { emptyState with students := [{ id := "9", number := 7, name := "Lee", addedDate := 0 }] }

/-! Helper lemmas about the list primitives of the embedding. -/

theorem loanCount_append (i : String) (xs ys : List Loan) :
    loanCount i (xs ++ ys) = loanCount i xs + loanCount i ys := by
  simp [loanCount, List.filter_append]

theorem loanCount_cons (i : String) (l : Loan) (ls : List Loan) :
    loanCount i (l :: ls) = (if l.bookId = i then 1 else 0) + loanCount i ls := by
  by_cases h : l.bookId = i <;> simp [loanCount, List.filter_cons, h, Nat.add_comm]

theorem loanCount_eq_zero {i : String} {ls : List Loan} :
    loanCount i ls = 0 ↔ ∀ l ∈ ls, l.bookId ≠ i := by
  simp [loanCount, List.length_eq_zero, List.filter_eq_nil_iff]

theorem loanCount_pos_of_mem {i : String} {l : Loan} {ls : List Loan}
    (hm : l ∈ ls) (hi : l.bookId = i) : loanCount i ls ≠ 0 := by
  rw [Ne, loanCount_eq_zero]
  intro h
  exact h l hm hi

theorem find?_split {α : Type} {p : α → Bool} {l : List α} {a : α}
    (h : l.find? p = some a) :
    ∃ u v, l = u ++ a :: v ∧ ∀ x ∈ u, p x = false := by
  induction l with
  | nil => simp at h
  | cons b bs ih =>
    cases hb : p b with
    | true =>
      rw [List.find?_cons, hb] at h
      simp only [Option.some.injEq] at h
      exact ⟨[], bs, by simp [h], by simp⟩
    | false =>
      rw [List.find?_cons, hb] at h
      obtain ⟨u, v, rfl, hu⟩ := ih h
      refine ⟨b :: u, v, rfl, ?_⟩
      intro x hx
      rcases List.mem_cons.mp hx with rfl | hx
      · exact hb
      · exact hu x hx

theorem setFirstStatus_map_id (i : String) (w : Status) (bs : List Book) :
    (setFirstStatus i w bs).map Book.id = bs.map Book.id := by
  induction bs with
  | nil => rfl
  | cons b bs ih =>
    simp only [setFirstStatus]
    split
    · simp
    · simp [ih]

theorem setFirstStatus_append (i : String) (w : Status) (u : List Book) (b : Book)
    (rest : List Book) (hu : ∀ x ∈ u, x.id ≠ i) (hb : b.id = i) :
    setFirstStatus i w (u ++ b :: rest) = u ++ { b with status := w } :: rest := by
  induction u with
  | nil => simp [setFirstStatus, hb]
  | cons x xs ih =>
    have hx : x.id ≠ i := hu x (by simp)
    simp only [List.cons_append, setFirstStatus, List.append_eq]
    rw [if_neg (by simp [hx])]
    rw [ih (fun y hy => hu y (by simp [hy]))]

theorem find?_setFirstStatus (i : String) (w : Status) (bs : List Book) :
    (setFirstStatus i w bs).find? (fun b => b.id == i) =
      (bs.find? (fun b => b.id == i)).map (fun b => { b with status := w }) := by
  induction bs with
  | nil => rfl
  | cons b bs ih =>
    simp only [setFirstStatus]
    by_cases h : b.id = i
    · have hb : (b.id == i) = true := by simp [h]
      rw [if_pos hb, List.find?_cons, List.find?_cons]
      simp [hb]
    · have hb : (b.id == i) = false := by simp [h]
      rw [if_neg (by simp [h]), List.find?_cons, List.find?_cons, hb]
      simp [ih]

theorem eraseFirstLoan_append (i : String) (u : List Loan) (l : Loan) (rest : List Loan)
    (hu : ∀ x ∈ u, x.bookId ≠ i) (hl : l.bookId = i) :
    eraseFirstLoan i (u ++ l :: rest) = u ++ rest := by
  induction u with
  | nil => simp [eraseFirstLoan, hl]
  | cons x xs ih =>
    have hx : x.bookId ≠ i := hu x (by simp)
    simp only [List.cons_append, eraseFirstLoan, List.append_eq]
    rw [if_neg (by simp [hx]), ih (fun y hy => hu y (by simp [hy]))]

theorem mem_insertByNumber {y x : Student} {l : List Student} :
    y ∈ insertByNumber x l ↔ y = x ∨ y ∈ l := by
  induction l with
  | nil => simp [insertByNumber]
  | cons z zs ih =>
    simp only [insertByNumber]
    split
    · simp [List.mem_cons]
    · simp only [List.mem_cons, ih]
      tauto

theorem sorted_insertByNumber {x : Student} {l : List Student}
    (h : List.Sorted (fun a b : Student => a.number ≤ b.number) l) :
    List.Sorted (fun a b : Student => a.number ≤ b.number) (insertByNumber x l) := by
  induction l with
  | nil => simp [insertByNumber]
  | cons z zs ih =>
    rw [List.sorted_cons] at h
    obtain ⟨hz, hzs⟩ := h
    simp only [insertByNumber]
    split
    · rename_i hle
      rw [List.sorted_cons]
      refine ⟨?_, ?_⟩
      · intro b hb
        rcases List.mem_cons.mp hb with rfl | hb
        · exact hle
        · exact le_trans hle (hz b hb)
      · rw [List.sorted_cons]
        exact ⟨hz, hzs⟩
    · rename_i hgt
      rw [List.sorted_cons]
      refine ⟨?_, ih hzs⟩
      intro b hb
      rcases mem_insertByNumber.mp hb with rfl | hb
      · exact le_of_not_le hgt
      · exact hz b hb

theorem sorted_sortByNumber (l : List Student) :
    List.Sorted (fun a b : Student => a.number ≤ b.number) (sortByNumber l) := by
  induction l with
  | nil => simp [sortByNumber]
  | cons x xs ih => exact sorted_insertByNumber ih

theorem loanCount_singleton (i : String) (l : Loan) :
    loanCount i [l] = if l.bookId = i then 1 else 0 := by
  by_cases h : l.bookId = i <;> simp [loanCount, h]

theorem id_unique_decomp {p q : List Book} {b : Book}
    (h : ((p ++ b :: q).map Book.id).Nodup) :
    (∀ x ∈ p, x.id ≠ b.id) ∧ (∀ x ∈ q, x.id ≠ b.id) := by
  rw [List.map_append, List.map_cons] at h
  constructor
  · intro x hx heq
    have hd := List.disjoint_of_nodup_append h
    exact hd (heq ▸ List.mem_map_of_mem Book.id hx) (List.mem_cons_self _ _)
  · intro x hx heq
    have h2 := h.of_append_right
    rw [List.nodup_cons] at h2
    exact h2.1 (heq ▸ List.mem_map_of_mem Book.id hx)

/-! Preservation of the invariant by every store operation. -/

theorem inv_empty : Inv emptyState :=
  ⟨by simp [emptyState], by simp [emptyState], by simp [emptyState]⟩

theorem inv_addBook (d : BookInput) (t : Nat) (s : State) (h : Inv s) :
    Inv (addBook d t s).2 := by
  unfold addBook
  split
  · exact h
  · rename_i hany
    obtain ⟨h1, h2, h3⟩ := h
    have hfresh : ∀ b ∈ s.books, b.id ≠ (newBook d t s).id := by
      intro b hb heq
      exact hany (List.any_eq_true.mpr ⟨b, hb, by simp [heq]⟩)
    show Inv { s with books := s.books ++ [newBook d t s] }
    unfold Inv
    dsimp only
    refine ⟨?_, ?_, ?_⟩
    · intro b hb
      rcases List.mem_append.mp hb with hb | hb
      · exact h1 b hb
      · rw [List.mem_singleton] at hb
        subst hb
        constructor
        · intro hst
          exact absurd hst (by simp [newBook])
        · intro _
          rw [loanCount_eq_zero]
          intro l hl heq
          obtain ⟨c, hc, hcid⟩ := List.mem_map.mp (h2 l hl)
          exact hfresh c hc (by rw [hcid, heq])
    · intro l hl
      rw [List.map_append]
      exact List.mem_append_left _ (h2 l hl)
    · rw [List.map_append]
      refine List.Nodup.append h3 (by simp) (List.disjoint_left.mpr ?_)
      intro a ha hmem
      obtain ⟨c, hc, rfl⟩ := List.mem_map.mp ha
      rw [List.map_singleton, List.mem_singleton] at hmem
      exact hfresh c hc hmem

theorem inv_filter_books (i : String) (s : State) (h : Inv s)
    (hsafe : ∀ b ∈ s.books, b.id = i → b.status = Status.available) :
    Inv { s with books := s.books.filter (fun b => !(b.id == i)) } := by
  obtain ⟨h1, h2, h3⟩ := h
  unfold Inv
  dsimp only
  refine ⟨?_, ?_, ?_⟩
  · intro b hb
    exact h1 b (List.mem_of_mem_filter hb)
  · intro l hl
    obtain ⟨c, hc, hcid⟩ := List.mem_map.mp (h2 l hl)
    have hci : c.id ≠ i := by
      intro hci
      have h0 := (h1 c hc).2 (hsafe c hc hci)
      rw [loanCount_eq_zero] at h0
      exact h0 l hl hcid.symm
    refine List.mem_map.mpr ⟨c, ?_, hcid⟩
    rw [List.mem_filter]
    exact ⟨hc, by simp [hci]⟩
  · exact List.Nodup.sublist (List.Sublist.map Book.id (List.filter_sublist s.books)) h3

theorem inv_deleteBook (i : String) (s : State) (h : Inv s) : Inv (deleteBook i s).2 := by
  unfold deleteBook
  split
  · rename_i b heq
    split
    · exact h
    · rename_i hst
      have hbid : b.id = i := by simpa using List.find?_some heq
      refine inv_filter_books i s h ?_
      intro c hc hci
      obtain ⟨u, v, hdec, _⟩ := find?_split heq
      have huniq := id_unique_decomp (hdec ▸ h.2.2)
      have hcb : c = b := by
        by_contra hne
        rcases List.mem_append.mp (hdec ▸ hc) with hcu | hcv
        · exact huniq.1 c hcu (by rw [hci, hbid])
        · rcases List.mem_cons.mp hcv with rfl | hcv
          · exact hne rfl
          · exact huniq.2 c hcv (by rw [hci, hbid])
      subst hcb
      cases hbs : c.status
      · rfl
      · exact absurd hbs hst
  · rename_i heq
    refine inv_filter_books i s h ?_
    intro c hc hci
    rw [List.find?_eq_none] at heq
    exact absurd (by simp [hci]) (heq c hc)

theorem inv_addStudent (d : StudentInput) (t : Nat) (s : State) (h : Inv s) :
    Inv (addStudent d t s).2 := h

theorem inv_deleteStudent (i : String) (s : State) (h : Inv s) :
    Inv (deleteStudent i s).2 := by
  unfold deleteStudent
  split
  · exact h
  · exact h

theorem inv_loanBook (bid sid : String) (days : Nat) (note : String) (t : Nat)
    (s : State) (h : Inv s) : Inv (loanBook bid sid days note t s).2 := by
  unfold loanBook
  split
  · exact h
  · rename_i book heq
    split
    · exact h
    · rename_i stu heq2
      split
      · exact h
      · rename_i hnl
        obtain ⟨h1, h2, h3⟩ := h
        have hbid : book.id = bid := by simpa using List.find?_some heq
        have hbmem : book ∈ s.books := List.mem_of_find?_eq_some heq
        have hav : book.status = Status.available := by
          cases hbs : book.status
          · rfl
          · exact absurd hbs hnl
        have hcount0 : loanCount bid s.loans = 0 := hbid ▸ (h1 book hbmem).2 hav
        obtain ⟨u, v, hdec, hu⟩ := find?_split heq
        have hu2 : ∀ x ∈ u, x.id ≠ bid := by
          intro x hx hxe
          have hfx := hu x hx
          rw [hxe] at hfx
          simp at hfx
        have hbooks : setFirstStatus bid Status.loaned s.books
            = u ++ { book with status := Status.loaned } :: v := by
          rw [hdec]
          exact setFirstStatus_append bid _ u book v hu2 hbid
        have hvid : ∀ x ∈ v, x.id ≠ bid := by
          intro x hx
          rw [← hbid]
          exact (id_unique_decomp (hdec ▸ h3)).2 x hx
        show Inv { s with loans := s.loans ++ [newLoan bid sid days note t],
                          books := setFirstStatus bid Status.loaned s.books }
        unfold Inv
        dsimp only
        refine ⟨?_, ?_, ?_⟩
        · intro b hb
          rw [hbooks] at hb
          rcases List.mem_append.mp hb with hbu | hbc
          · have hne : b.id ≠ bid := hu2 b hbu
            have hmem : b ∈ s.books := by
              rw [hdec]
              exact List.mem_append_left _ hbu
            have hcnt : loanCount b.id (s.loans ++ [newLoan bid sid days note t])
                = loanCount b.id s.loans := by
              rw [loanCount_append, loanCount_singleton,
                if_neg (show ¬(newLoan bid sid days note t).bookId = b.id from
                  fun e => hne (Eq.symm e)),
                Nat.add_zero]
            exact ⟨fun hl => by rw [hcnt]; exact (h1 b hmem).1 hl,
                   fun ha => by rw [hcnt]; exact (h1 b hmem).2 ha⟩
          · rcases List.mem_cons.mp hbc with rfl | hbv
            · constructor
              · intro _
                have hid : ({ book with status := Status.loaned } : Book).id = bid := hbid
                rw [hid, loanCount_append, loanCount_singleton, hcount0]
                simp [newLoan]
              · intro ha
                exact absurd ha (by simp)
            · have hne : b.id ≠ bid := hvid b hbv
              have hmem : b ∈ s.books := by
                rw [hdec]
                exact List.mem_append_right _ (List.mem_cons_of_mem _ hbv)
              have hcnt : loanCount b.id (s.loans ++ [newLoan bid sid days note t])
                  = loanCount b.id s.loans := by
                rw [loanCount_append, loanCount_singleton,
                  if_neg (show ¬(newLoan bid sid days note t).bookId = b.id from
                    fun e => hne (Eq.symm e)),
                  Nat.add_zero]
              exact ⟨fun hl => by rw [hcnt]; exact (h1 b hmem).1 hl,
                     fun ha => by rw [hcnt]; exact (h1 b hmem).2 ha⟩
        · intro l hl
          rw [setFirstStatus_map_id]
          rcases List.mem_append.mp hl with hl | hl
          · exact h2 l hl
          · rw [List.mem_singleton] at hl
            subst hl
            exact hbid ▸ List.mem_map_of_mem Book.id hbmem
        · rw [setFirstStatus_map_id]
          exact h3

theorem inv_erase (bid : String) (s : State) (loan : Loan)
    (hfind : s.loans.find? (fun l => l.bookId == bid) = some loan)
    (h : Inv s) (ss : List Student) (hh : List HistoryEntry) :
    Inv { books := setFirstStatus bid Status.available s.books,
          students := ss,
          loans := eraseFirstLoan bid s.loans,
          loanHistory := hh } := by
  obtain ⟨h1, h2, h3⟩ := h
  have hlbid : loan.bookId = bid := by simpa using List.find?_some hfind
  have hlmem : loan ∈ s.loans := List.mem_of_find?_eq_some hfind
  obtain ⟨book, hbmem, hbid⟩ := List.mem_map.mp (h2 loan hlmem)
  rw [hlbid] at hbid
  have hloaned : book.status = Status.loaned := by
    cases hbs : book.status
    · exfalso
      have h0 := (h1 book hbmem).2 hbs
      rw [hbid] at h0
      exact loanCount_pos_of_mem hlmem hlbid h0
    · rfl
  have hcount1 : loanCount bid s.loans = 1 := by
    have hc := (h1 book hbmem).1 hloaned
    rw [hbid] at hc
    exact hc
  obtain ⟨u, v, hdec, hu⟩ := find?_split hfind
  have hu2 : ∀ x ∈ u, x.bookId ≠ bid := by
    intro x hx hxe
    have hfx := hu x hx
    rw [hxe] at hfx
    simp at hfx
  have herase : eraseFirstLoan bid s.loans = u ++ v := by
    rw [hdec]
    exact eraseFirstLoan_append bid u loan v hu2 hlbid
  have hv : ∀ x ∈ v, x.bookId ≠ bid := by
    have hc : loanCount bid (u ++ loan :: v) = 1 := hdec ▸ hcount1
    rw [loanCount_append, loanCount_cons, if_pos hlbid] at hc
    have hv0 : loanCount bid v = 0 := by omega
    exact loanCount_eq_zero.mp hv0
  have hcount0 : loanCount bid (u ++ v) = 0 := by
    rw [loanCount_append, loanCount_eq_zero.mpr hu2, loanCount_eq_zero.mpr hv]
  obtain ⟨p, q, hdecB⟩ := List.append_of_mem hbmem
  have huniq := id_unique_decomp (hdecB ▸ h3)
  have hp2 : ∀ x ∈ p, x.id ≠ bid := fun x hx => hbid ▸ huniq.1 x hx
  have hq2 : ∀ x ∈ q, x.id ≠ bid := fun x hx => hbid ▸ huniq.2 x hx
  have hbooks : setFirstStatus bid Status.available s.books
      = p ++ { book with status := Status.available } :: q := by
    rw [hdecB]
    exact setFirstStatus_append bid _ p book q hp2 hbid
  unfold Inv
  dsimp only
  refine ⟨?_, ?_, ?_⟩
  · intro b hb
    rw [hbooks] at hb
    rw [herase]
    rcases List.mem_append.mp hb with hbp | hbc
    · have hne : b.id ≠ bid := hp2 b hbp
      have hmem : b ∈ s.books := by
        rw [hdecB]
        exact List.mem_append_left _ hbp
      have hcnt : loanCount b.id (u ++ v) = loanCount b.id s.loans := by
        rw [hdec, loanCount_append, loanCount_append, loanCount_cons,
          if_neg (show ¬loan.bookId = b.id from fun e => hne ((Eq.symm e).trans hlbid)),
          Nat.zero_add]
      exact ⟨fun hl => by rw [hcnt]; exact (h1 b hmem).1 hl,
             fun ha => by rw [hcnt]; exact (h1 b hmem).2 ha⟩
    · rcases List.mem_cons.mp hbc with rfl | hbq
      · constructor
        · intro hl
          exact absurd hl (by simp)
        · intro _
          have hid : ({ book with status := Status.available } : Book).id = bid := hbid
          rw [hid, hcount0]
      · have hne : b.id ≠ bid := hq2 b hbq
        have hmem : b ∈ s.books := by
          rw [hdecB]
          exact List.mem_append_right _ (List.mem_cons_of_mem _ hbq)
        have hcnt : loanCount b.id (u ++ v) = loanCount b.id s.loans := by
          rw [hdec, loanCount_append, loanCount_append, loanCount_cons,
            if_neg (show ¬loan.bookId = b.id from fun e => hne ((Eq.symm e).trans hlbid)),
            Nat.zero_add]
        exact ⟨fun hl => by rw [hcnt]; exact (h1 b hmem).1 hl,
               fun ha => by rw [hcnt]; exact (h1 b hmem).2 ha⟩
  · intro l hl
    rw [setFirstStatus_map_id]
    rw [herase] at hl
    rcases List.mem_append.mp hl with hl | hl
    · exact h2 l (by rw [hdec]; exact List.mem_append_left _ hl)
    · exact h2 l (by rw [hdec]; exact List.mem_append_right _ (List.mem_cons_of_mem _ hl))
  · rw [setFirstStatus_map_id]
    exact h3

theorem inv_returnBook (bid : String) (t : Nat) (s : State) (h : Inv s) :
    Inv (returnBook bid t s).2 := by
  unfold returnBook
  split
  · exact h
  · rename_i loan heq
    exact inv_erase bid s loan heq h s.students (s.loanHistory ++ [closeLoan loan t])

theorem inv_deleteLoan (bid : String) (s : State) (h : Inv s) :
    Inv (deleteLoan bid s).2 := by
  unfold deleteLoan
  split
  · exact h
  · rename_i loan heq
    exact inv_erase bid s loan heq h s.students s.loanHistory

theorem find?_append_right {α : Type} {p : α → Bool} {xs : List α} (ys : List α)
    (h : ∀ x ∈ xs, p x = false) : (xs ++ ys).find? p = ys.find? p := by
  induction xs with
  | nil => rfl
  | cons a as ih =>
    rw [List.cons_append, List.find?_cons, h a (by simp)]
    exact ih (fun x hx => h x (by simp [hx]))

theorem loans_decomp_of_inv {bid : String} {s : State} {loan : Loan}
    (h : Inv s) (hfind : s.loans.find? (fun l => l.bookId == bid) = some loan) :
    loan.bookId = bid ∧
      ∃ u v, s.loans = u ++ loan :: v ∧
        (∀ x ∈ u, x.bookId ≠ bid) ∧ (∀ x ∈ v, x.bookId ≠ bid) := by
  obtain ⟨h1, h2, h3⟩ := h
  have hlbid : loan.bookId = bid := by simpa using List.find?_some hfind
  have hlmem : loan ∈ s.loans := List.mem_of_find?_eq_some hfind
  obtain ⟨book, hbmem, hbid⟩ := List.mem_map.mp (h2 loan hlmem)
  rw [hlbid] at hbid
  have hloaned : book.status = Status.loaned := by
    cases hbs : book.status
    · exfalso
      have h0 := (h1 book hbmem).2 hbs
      rw [hbid] at h0
      exact loanCount_pos_of_mem hlmem hlbid h0
    · rfl
  have hcount1 : loanCount bid s.loans = 1 := by
    have hc := (h1 book hbmem).1 hloaned
    rw [hbid] at hc
    exact hc
  obtain ⟨u, v, hdec, hu⟩ := find?_split hfind
  have hu2 : ∀ x ∈ u, x.bookId ≠ bid := by
    intro x hx hxe
    have hfx := hu x hx
    rw [hxe] at hfx
    simp at hfx
  have hv : ∀ x ∈ v, x.bookId ≠ bid := by
    have hc : loanCount bid (u ++ loan :: v) = 1 := hdec ▸ hcount1
    rw [loanCount_append, loanCount_cons, if_pos hlbid] at hc
    have hv0 : loanCount bid v = 0 := by omega
    exact loanCount_eq_zero.mp hv0
  exact ⟨hlbid, u, v, hdec, hu2, hv⟩

theorem inv_of_reachable {s : State} (h : Reachable s) : Inv s := by
  induction h with
  | base => exact inv_empty
  | stepAddBook d t _ ih => exact inv_addBook d t _ ih
  | stepDeleteBook i _ ih => exact inv_deleteBook i _ ih
  | stepAddStudent d t _ ih => exact inv_addStudent d t _ ih
  | stepDeleteStudent i _ ih => exact inv_deleteStudent i _ ih
  | stepLoanBook bid sid days note t _ ih => exact inv_loanBook bid sid days note t _ ih
  | stepReturnBook bid t _ ih => exact inv_returnBook bid t _ ih
  | stepDeleteLoan bid _ ih => exact inv_deleteLoan bid _ ih

/-! The claims. -/

/-- C1: For every store state reachable from the empty state by the store
operations (addBook, deleteBook, addStudent, deleteStudent, loanBook,
returnBook, deleteLoan), every book has status Loaned if and only if exactly
one active loan references that book's id. -/
theorem loaned_iff_one_active_loan {s : State} (h : Reachable s) :
    ∀ b ∈ s.books, (b.status = Status.loaned ↔ loanCount b.id s.loans = 1) := by
  obtain ⟨h1, _, _⟩ := inv_of_reachable h
  intro b hb
  constructor
  · exact (h1 b hb).1
  · intro hc
    cases hbs : b.status
    · have h0 := (h1 b hb).2 hbs
      rw [h0] at hc
      exact absurd hc (by decide)
    · rfl

/-- C1 witness: the invariant instantiated at the concrete reachable state
holding the single available book B001. -/
theorem loaned_iff_one_active_loan_witness :
    Reachable stateB ∧
      ∀ b ∈ stateB.books, (b.status = Status.loaned ↔ loanCount b.id stateB.loans = 1) :=
  ⟨Reachable.stepAddBook ⟨some "B001", "T", none, none⟩ 0 Reachable.base,
   loaned_iff_one_active_loan
     (Reachable.stepAddBook ⟨some "B001", "T", none, none⟩ 0 Reachable.base)⟩

/-- C7: For every store state, importData(exportData()) leaves all four
collections unchanged (it replaces each collection by itself). -/
theorem import_export_roundtrip (t : Nat) (s : State) :
    importData (exportData t s) s = s := rfl

/-- C9: the failing input for the student-id-uniqueness claim — two addStudent
calls within the same clock tick (the certain outcome of one addStudentsBulk
run, since Date.now() has millisecond resolution) assign the SAME id "5" to
both students, so the roster's ids are not unique. -/
theorem student_id_collision :
    ((addStudentsBulk [⟨none, "A"⟩, ⟨none, "B"⟩] 5 emptyState).2.students.map Student.id)
        = ["5", "5"] ∧
      ¬ ((addStudentsBulk [⟨none, "A"⟩, ⟨none, "B"⟩] 5 emptyState).2.students.map
          Student.id).Nodup := by decide

/-- C10: addStudent never fails (it performs no validation), so for every
input list addStudentsBulk returns an empty failed bucket and a success
bucket with one record per input entry, in input order. -/
theorem addStudentsBulk_never_fails (ds : List StudentInput) (t : Nat) (s : State) :
    (addStudentsBulk ds t s).1.failed = [] ∧
      (addStudentsBulk ds t s).1.success.map Student.name = ds.map StudentInput.name := by
  have main : ∀ (ds : List StudentInput) (t : Nat) (s : State) (acc : BulkResult),
      (bulkGo ds t s acc).1.failed = acc.failed ∧
        (bulkGo ds t s acc).1.success.map Student.name
          = acc.success.map Student.name ++ ds.map StudentInput.name := by
    intro ds
    induction ds with
    | nil =>
      intro t s acc
      simp [bulkGo]
    | cons d rest ih =>
      intro t s acc
      obtain ⟨hf, hs⟩ := ih t (addStudent d t s).2
        { acc with success := acc.success ++ [(addStudent d t s).1] }
      refine ⟨hf, ?_⟩
      rw [show bulkGo (d :: rest) t s acc
          = bulkGo rest t (addStudent d t s).2
              { acc with success := acc.success ++ [(addStudent d t s).1] } from rfl]
      rw [hs]
      simp [addStudent, newStudent]
  obtain ⟨hf, hs⟩ := main ds t s ⟨[], []⟩
  unfold addStudentsBulk
  refine ⟨hf, ?_⟩
  rw [hs]
  simp

/-- C5: auto id generation scans ids matching B + digits, takes the maximal
numeric suffix, increments, and zero-pads to 3 digits — with books
{B001, B003} addBook assigns B004, with no books B001 — and addBook with an
explicit caller-supplied id equal to an existing id fails with the
duplicate-id error. -/
theorem book_id_generation :
    ((addBook ⟨none, "T", none, none⟩ 0 stateB13).1
        = .ok { id := "B004", title := "T", author := "", publisher := "",
                status := .available, addedDate := 0 }) ∧
    ((addBook ⟨none, "T", none, none⟩ 0 emptyState).1
        = .ok { id := "B001", title := "T", author := "", publisher := "",
                status := .available, addedDate := 0 }) ∧
    (∀ (d : BookInput) (t : Nat) (s : State) (i : String), d.id = some i → i ≠ "" →
      (∃ b ∈ s.books, b.id = i) → (addBook d t s).1 = .error .duplicateId) := by
  refine ⟨by decide, by decide, ?_⟩
  intro d t s i hdi hne hex
  obtain ⟨b, hb, hbi⟩ := hex
  have hid : (newBook d t s).id = i := by simp [newBook, hdi, hne]
  unfold addBook
  rw [if_pos (List.any_eq_true.mpr ⟨b, hb, by simp [hid, hbi]⟩)]

/-- C5 witness: adding B001 again to the {B001, B003} store hits the
duplicate-id error. -/
theorem book_id_generation_witness :
    ((⟨some "B001", "T", none, none⟩ : BookInput).id = some "B001") ∧
      "B001" ≠ "" ∧ (∃ b ∈ stateB13.books, b.id = "B001") ∧
      (addBook ⟨some "B001", "T", none, none⟩ 0 stateB13).1 = .error .duplicateId :=
  ⟨rfl, by decide, ⟨sampleBook "B001", by decide, rfl⟩,
    book_id_generation.2.2 ⟨some "B001", "T", none, none⟩ 0 stateB13 "B001" rfl
      (by decide) ⟨sampleBook "B001", by decide, rfl⟩⟩

/-- C8 counterexample: the number-assignment claim fails for the
caller-supplied number 0 — 0 is falsy, so addStudent discards it and
synthesizes max + 1 (here 8) instead of assigning 0. -/
theorem addStudent_number_cex :
    (addStudent ⟨some 0, "Kim"⟩ 5 stateN7).1.number = 8 ∧ (8 : Nat) ≠ 0 := by decide

/-- C8 amended: addStudent assigns the caller-supplied number when a NONZERO
number is given; with no number, or the falsy number 0, it synthesizes
max(existing numbers) + 1 (the max taken as 0 when the roster is empty);
after every addStudent the student collection is sorted by number ascending. -/
theorem addStudent_number_amended :
    (∀ (d : StudentInput) (t : Nat) (s : State) (n : Nat),
      d.number = some n → n ≠ 0 → (addStudent d t s).1.number = n) ∧
    (∀ (d : StudentInput) (t : Nat) (s : State),
      (d.number = none ∨ d.number = some 0) →
        (addStudent d t s).1.number
          = (s.students.foldl (fun mx st => if st.number > mx then st.number else mx) 0)
              + 1) ∧
    (∀ (d : StudentInput) (t : Nat) (s : State),
      List.Sorted (fun a b : Student => a.number ≤ b.number) (addStudent d t s).2.students) := by
  refine ⟨?_, ?_, ?_⟩
  · intro d t s n hd hn
    simp [addStudent, newStudent, hd, hn]
  · rintro d t s (hd | hd) <;> simp [addStudent, newStudent, hd, generateStudentNumber]
  · intro d t s
    exact sorted_sortByNumber _

/-- C8 witness: nonzero number 7 is kept; a missing number on the roster
{number 7} synthesizes 8; the roster stays sorted. -/
theorem addStudent_number_amended_witness :
    ((⟨some 7, "Lee"⟩ : StudentInput).number = some 7 ∧ (7 : Nat) ≠ 0 ∧
      (addStudent ⟨some 7, "Lee"⟩ 3 emptyState).1.number = 7) ∧
    ((⟨none, "Kim"⟩ : StudentInput).number = none ∧
      (addStudent ⟨none, "Kim"⟩ 5 stateN7).1.number
        = (stateN7.students.foldl (fun mx st => if st.number > mx then st.number else mx) 0)
            + 1) ∧
    List.Sorted (fun a b : Student => a.number ≤ b.number)
      (addStudent ⟨some 2, "A"⟩ 6 stateN7).2.students :=
  ⟨⟨rfl, by decide, addStudent_number_amended.1 ⟨some 7, "Lee"⟩ 3 emptyState 7 rfl (by decide)⟩,
   ⟨rfl, addStudent_number_amended.2.1 ⟨none, "Kim"⟩ 5 stateN7 (Or.inl rfl)⟩,
   addStudent_number_amended.2.2 ⟨some 2, "A"⟩ 6 stateN7⟩

/-- C4: every store operation that raises one of the defined errors leaves
the in-memory state exactly as it was before the call — all validation
happens before any write. -/
theorem failed_ops_leave_state_unchanged :
    (∀ (d : BookInput) (t : Nat) (s : State) (e : LibError),
      (addBook d t s).1 = .error e → (addBook d t s).2 = s) ∧
    (∀ (i : String) (s : State) (e : LibError),
      (deleteBook i s).1 = .error e → (deleteBook i s).2 = s) ∧
    (∀ (i : String) (s : State) (e : LibError),
      (deleteStudent i s).1 = .error e → (deleteStudent i s).2 = s) ∧
    (∀ (bid sid : String) (days : Nat) (note : String) (t : Nat) (s : State) (e : LibError),
      (loanBook bid sid days note t s).1 = .error e
        → (loanBook bid sid days note t s).2 = s) ∧
    (∀ (bid : String) (t : Nat) (s : State) (e : LibError),
      (returnBook bid t s).1 = .error e → (returnBook bid t s).2 = s) ∧
    (∀ (bid : String) (s : State) (e : LibError),
      (deleteLoan bid s).1 = .error e → (deleteLoan bid s).2 = s) := by
  refine ⟨?_, ?_, ?_, ?_, ?_, ?_⟩
  · intro d t s e
    unfold addBook
    split
    · intro _
      rfl
    · intro h
      exact absurd h (by simp)
  · intro i s e
    unfold deleteBook
    split
    · split
      · intro _
        rfl
      · intro h
        exact absurd h (by simp)
    · intro h
      exact absurd h (by simp)
  · intro i s e
    unfold deleteStudent
    split
    · intro _
      rfl
    · intro h
      exact absurd h (by simp)
  · intro bid sid days note t s e
    unfold loanBook
    split
    · intro _
      rfl
    · split
      · intro _
        rfl
      · split
        · intro _
          rfl
        · intro h
          exact absurd h (by simp)
  · intro bid t s e
    unfold returnBook
    split
    · intro _
      rfl
    · intro h
      exact absurd h (by simp)
  · intro bid s e
    unfold deleteLoan
    split
    · intro _
      rfl
    · intro h
      exact absurd h (by simp)

/-- C4 witness: one concrete failing call per operation, each leaving its
input state untouched. -/
theorem failed_ops_leave_state_unchanged_witness :
    ((addBook ⟨some "B001", "T", none, none⟩ 0 stateB13).1 = .error .duplicateId ∧
      (addBook ⟨some "B001", "T", none, none⟩ 0 stateB13).2 = stateB13) ∧
    ((deleteBook "B001" stateLoaned).1 = .error .bookOnLoan ∧
      (deleteBook "B001" stateLoaned).2 = stateLoaned) ∧
    ((deleteStudent "1" stateLoaned).1 = .error .studentHasActiveLoans ∧
      (deleteStudent "1" stateLoaned).2 = stateLoaned) ∧
    ((loanBook "X" "1" 14 "" 3 emptyState).1 = .error .bookNotFound ∧
      (loanBook "X" "1" 14 "" 3 emptyState).2 = emptyState) ∧
    ((returnBook "B001" 3 emptyState).1 = .error .loanNotFound ∧
      (returnBook "B001" 3 emptyState).2 = emptyState) ∧
    ((deleteLoan "B001" emptyState).1 = .error .loanNotFound ∧
      (deleteLoan "B001" emptyState).2 = emptyState) :=
  ⟨⟨by decide, failed_ops_leave_state_unchanged.1 ⟨some "B001", "T", none, none⟩ 0 stateB13
      LibError.duplicateId (by decide)⟩,
   ⟨by decide, failed_ops_leave_state_unchanged.2.1 "B001" stateLoaned
      LibError.bookOnLoan (by decide)⟩,
   ⟨by decide, failed_ops_leave_state_unchanged.2.2.1 "1" stateLoaned
      LibError.studentHasActiveLoans (by decide)⟩,
   ⟨by decide, failed_ops_leave_state_unchanged.2.2.2.1 "X" "1" 14 "" 3 emptyState
      LibError.bookNotFound (by decide)⟩,
   ⟨by decide, failed_ops_leave_state_unchanged.2.2.2.2.1 "B001" 3 emptyState
      LibError.loanNotFound (by decide)⟩,
   ⟨by decide, failed_ops_leave_state_unchanged.2.2.2.2.2 "B001" emptyState
      LibError.loanNotFound (by decide)⟩⟩

/-- C2 counterexample: loanBook(B001, S1) succeeds, yet the subsequent
loanBook(B001, S2) with the nonexistent student "ghost" fails with the
student-not-found error — not the book-already-loaned error the claim
demands for every S2. -/
theorem loan_mutual_exclusion_cex :
    (loanBook "B001" "1" 14 "" 2 stateBS).1.isOk = true ∧
    (loanBook "B001" "ghost" 14 "" 3 stateLoaned).1 = .error .studentNotFound ∧
    LibError.studentNotFound ≠ LibError.bookAlreadyLoaned := by decide

/-- C2 amended: after loanBook(B,S1) succeeds, a subsequent loanBook(B,S2)
fails with BookAlreadyLoanedError for every S2 that EXISTS in the store
(including S2 = S1; a nonexistent S2 hits the student-not-found check
first); and after returnBook(B) succeeds, a subsequent loanBook(B,S2) with
existing book and student succeeds. -/
theorem loan_mutual_exclusion_amended :
    (∀ (bid sid1 sid2 : String) (d1 d2 t1 t2 : Nat) (n1 n2 : String) (s : State),
      (loanBook bid sid1 d1 n1 t1 s).1.isOk = true →
      getStudent sid2 (loanBook bid sid1 d1 n1 t1 s).2 ≠ none →
      (loanBook bid sid2 d2 n2 t2 (loanBook bid sid1 d1 n1 t1 s).2).1
        = .error .bookAlreadyLoaned) ∧
    (∀ (bid sid2 : String) (t d2 t2 : Nat) (n2 : String) (s : State) (bk : Book)
        (stu : Student),
      (returnBook bid t s).1.isOk = true →
      getBook bid (returnBook bid t s).2 = some bk →
      getStudent sid2 (returnBook bid t s).2 = some stu →
      (loanBook bid sid2 d2 n2 t2 (returnBook bid t s).2).1.isOk = true) := by
  constructor
  · intro bid sid1 sid2 d1 d2 t1 t2 n1 n2 s hok hstu
    rcases hb : getBook bid s with _ | book
    · rw [show loanBook bid sid1 d1 n1 t1 s = (.error .bookNotFound, s) from by
        unfold loanBook; rw [hb]] at hok
      exact absurd hok (by simp [Res.isOk])
    rcases hs1 : getStudent sid1 s with _ | stu1
    · rw [show loanBook bid sid1 d1 n1 t1 s = (.error .studentNotFound, s) from by
        unfold loanBook; rw [hb, hs1]] at hok
      exact absurd hok (by simp [Res.isOk])
    by_cases hl : book.status = Status.loaned
    · rw [show loanBook bid sid1 d1 n1 t1 s = (.error .bookAlreadyLoaned, s) from by
        unfold loanBook; rw [hb, hs1]; dsimp only; rw [if_pos hl]] at hok
      exact absurd hok (by simp [Res.isOk])
    have hpost : (loanBook bid sid1 d1 n1 t1 s).2
        = { s with loans := s.loans ++ [newLoan bid sid1 d1 n1 t1],
                   books := setFirstStatus bid Status.loaned s.books } := by
      unfold loanBook
      rw [hb, hs1]
      dsimp only
      rw [if_neg hl]
    have hb2 : getBook bid (loanBook bid sid1 d1 n1 t1 s).2
        = some { book with status := Status.loaned } := by
      rw [hpost]
      show (setFirstStatus bid Status.loaned s.books).find? (fun b => b.id == bid) = _
      rw [find?_setFirstStatus,
        show s.books.find? (fun b => b.id == bid) = some book from hb]
      rfl
    rcases hs2 : getStudent sid2 (loanBook bid sid1 d1 n1 t1 s).2 with _ | stu2
    · exact absurd hs2 hstu
    generalize hg : (loanBook bid sid1 d1 n1 t1 s).2 = s1 at hb2 hs2
    unfold loanBook
    split
    · rename_i heq
      rw [hb2] at heq
      exact absurd heq (by simp)
    · rename_i book2 heq
      rw [hb2] at heq
      injection heq with heq
      split
      · rename_i heq2
        rw [hs2] at heq2
        exact absurd heq2 (by simp)
      · rename_i stu2b heq2
        split
        · rfl
        · rename_i hnl
          exfalso
          exact hnl (by rw [← heq])
  · intro bid sid2 t d2 t2 n2 s bk stu hok hbk hstu
    rcases hf : s.loans.find? (fun l => l.bookId == bid) with _ | loan
    · rw [show returnBook bid t s = (.error .loanNotFound, s) from by
        unfold returnBook; rw [hf]] at hok
      exact absurd hok (by simp [Res.isOk])
    have hpost : (returnBook bid t s).2
        = { s with loanHistory := s.loanHistory ++ [closeLoan loan t],
                   loans := eraseFirstLoan bid s.loans,
                   books := setFirstStatus bid Status.available s.books } := by
      unfold returnBook
      rw [hf]
    have hbkav : bk.status = Status.available := by
      have hbk2 : (setFirstStatus bid Status.available s.books).find? (fun b => b.id == bid)
          = some bk := by
        rw [hpost] at hbk
        exact hbk
      rw [find?_setFirstStatus] at hbk2
      rcases hfb : s.books.find? (fun b => b.id == bid) with _ | b0
      · rw [hfb] at hbk2
        exact absurd hbk2 (by simp)
      · rw [hfb] at hbk2
        simp only [Option.map] at hbk2
        injection hbk2 with hbk2
        rw [← hbk2]
    unfold loanBook
    split
    · rename_i heq
      rw [hbk] at heq
      exact absurd heq (by simp)
    · rename_i bk2 heq
      rw [hbk] at heq
      injection heq with heq
      split
      · rename_i heq2
        rw [hstu] at heq2
        exact absurd heq2 (by simp)
      · rename_i stu2 heq2
        split
        · rename_i hl
          exfalso
          rw [← heq, hbkav] at hl
          exact absurd hl (by decide)
        · rfl

/-- C2 witness: loaning B001 twice to the same existing student hits the
already-loaned error; after returning B001 the next loan succeeds. -/
theorem loan_mutual_exclusion_amended_witness :
    ((loanBook "B001" "1" 14 "" 2 stateBS).1.isOk = true ∧
      getStudent "1" (loanBook "B001" "1" 14 "" 2 stateBS).2 ≠ none ∧
      (loanBook "B001" "1" 14 "" 4 (loanBook "B001" "1" 14 "" 2 stateBS).2).1
        = .error .bookAlreadyLoaned) ∧
    ((returnBook "B001" 3 stateLoaned).1.isOk = true ∧
      (loanBook "B001" "1" 14 "" 4 (returnBook "B001" 3 stateLoaned).2).1.isOk = true) :=
  ⟨⟨by decide, by decide,
     loan_mutual_exclusion_amended.1 "B001" "1" "1" 14 14 2 4 "" "" stateBS
       (by decide) (by decide)⟩,
   ⟨by decide,
     loan_mutual_exclusion_amended.2 "B001" "1" 3 14 4 "" stateLoaned
       { id := "B001", title := "T", author := "", publisher := "",
         status := Status.available, addedDate := 0 }
       { id := "1", number := 1, name := "Kim", addedDate := 1 }
       (by decide) (by decide) (by decide)⟩⟩

/-- C6: for every book with an active loan in a reachable store, deleteLoan
removes the active loan and resets the book's status to Available while
leaving the loan-history collection exactly unchanged; and no lifecycle
operation other than returnBook ever changes the loan-history collection. -/
theorem deleteLoan_history_silent :
    (∀ (bid : String) (s : State) (bk : Book), Reachable s →
      (deleteLoan bid s).1 = .ok () →
      getBook bid s = some bk →
        (deleteLoan bid s).2.loanHistory = s.loanHistory ∧
        (deleteLoan bid s).2.loans = s.loans.filter (fun l => !(l.bookId == bid)) ∧
        getBook bid (deleteLoan bid s).2 = some { bk with status := Status.available }) ∧
    (∀ (d : BookInput) (t : Nat) (s : State),
      (addBook d t s).2.loanHistory = s.loanHistory) ∧
    (∀ (i : String) (s : State), (deleteBook i s).2.loanHistory = s.loanHistory) ∧
    (∀ (d : StudentInput) (t : Nat) (s : State),
      (addStudent d t s).2.loanHistory = s.loanHistory) ∧
    (∀ (i : String) (s : State), (deleteStudent i s).2.loanHistory = s.loanHistory) ∧
    (∀ (bid sid : String) (days : Nat) (note : String) (t : Nat) (s : State),
      (loanBook bid sid days note t s).2.loanHistory = s.loanHistory) ∧
    (∀ (bid : String) (s : State), (deleteLoan bid s).2.loanHistory = s.loanHistory) := by
  refine ⟨?_, ?_, ?_, ?_, ?_, ?_, ?_⟩
  · intro bid s bk hreach hok hbk
    rcases hf : s.loans.find? (fun l => l.bookId == bid) with _ | loan
    · rw [show deleteLoan bid s = (.error .loanNotFound, s) from by
        unfold deleteLoan; rw [hf]] at hok
      exact absurd hok (by simp)
    have hpost : (deleteLoan bid s).2
        = { s with loans := eraseFirstLoan bid s.loans,
                   books := setFirstStatus bid Status.available s.books } := by
      unfold deleteLoan
      rw [hf]
    obtain ⟨hlbid, u, v, hdec, hu2, hv⟩ := loans_decomp_of_inv (inv_of_reachable hreach) hf
    have hfilter : s.loans.filter (fun l => !(l.bookId == bid)) = u ++ v := by
      rw [hdec, List.filter_append]
      have hfu : u.filter (fun l => !(l.bookId == bid)) = u :=
        List.filter_eq_self.mpr (fun x hx => by simp [hu2 x hx])
      have hfv : (loan :: v).filter (fun l => !(l.bookId == bid)) = v := by
        rw [List.filter_cons, if_neg (by simp [hlbid])]
        exact List.filter_eq_self.mpr (fun x hx => by simp [hv x hx])
      rw [hfu, hfv]
    refine ⟨by rw [hpost], ?_, ?_⟩
    · rw [hpost, hfilter]
      show eraseFirstLoan bid s.loans = _
      rw [hdec, eraseFirstLoan_append bid u loan v hu2 hlbid]
    · rw [hpost]
      show (setFirstStatus bid Status.available s.books).find? (fun b => b.id == bid) = _
      rw [find?_setFirstStatus,
        show s.books.find? (fun b => b.id == bid) = some bk from hbk]
      rfl
  · intro d t s
    unfold addBook
    split <;> rfl
  · intro i s
    unfold deleteBook
    split
    · split <;> rfl
    · rfl
  · intro d t s
    rfl
  · intro i s
    unfold deleteStudent
    split <;> rfl
  · intro bid sid days note t s
    unfold loanBook
    split
    · rfl
    · split
      · rfl
      · split <;> rfl
  · intro bid s
    unfold deleteLoan
    split <;> rfl

/-- C6 witness: deleting the active loan of B001 in the concrete loaned
store writes no history entry and restores the book to Available. -/
theorem deleteLoan_history_silent_witness :
    Reachable stateLoaned ∧
    (deleteLoan "B001" stateLoaned).1 = .ok () ∧
    getBook "B001" stateLoaned
      = some { id := "B001", title := "T", author := "", publisher := "",
               status := Status.loaned, addedDate := 0 } ∧
    ((deleteLoan "B001" stateLoaned).2.loanHistory = stateLoaned.loanHistory ∧
      (deleteLoan "B001" stateLoaned).2.loans
        = stateLoaned.loans.filter (fun l => !(l.bookId == "B001")) ∧
      getBook "B001" (deleteLoan "B001" stateLoaned).2
        = some { id := "B001", title := "T", author := "", publisher := "",
                 status := Status.available, addedDate := 0 }) :=
  ⟨Reachable.stepLoanBook "B001" "1" 14 "" 2
      (Reachable.stepAddStudent ⟨some 1, "Kim"⟩ 1
        (Reachable.stepAddBook ⟨some "B001", "T", none, none⟩ 0 Reachable.base)),
   by decide, by decide,
   deleteLoan_history_silent.1 "B001" stateLoaned
     { id := "B001", title := "T", author := "", publisher := "",
       status := Status.loaned, addedDate := 0 }
     (Reachable.stepLoanBook "B001" "1" 14 "" 2
       (Reachable.stepAddStudent ⟨some 1, "Kim"⟩ 1
         (Reachable.stepAddBook ⟨some "B001", "T", none, none⟩ 0 Reachable.base)))
     (by decide) (by decide)⟩

/-- C3: in a reachable store, loanBook(B,S) followed by returnBook(B)
restores the book collection exactly (in particular B's status to
Available), restores the loans collection exactly (the active loan is
removed), leaves the students collection unchanged, and appends exactly one
history entry whose returnDate is at least its loanDate (the two calls see
monotone clock ticks). -/
theorem loan_return_roundtrip
    (bid sid : String) (days : Nat) (note : String) (t1 t2 : Nat) (s : State)
    (hreach : Reachable s)
    (hloan : (loanBook bid sid days note t1 s).1.isOk = true)
    (hret : (returnBook bid t2 (loanBook bid sid days note t1 s).2).1.isOk = true)
    (ht : t1 ≤ t2) :
    (returnBook bid t2 (loanBook bid sid days note t1 s).2).2.books = s.books ∧
    (returnBook bid t2 (loanBook bid sid days note t1 s).2).2.loans = s.loans ∧
    (returnBook bid t2 (loanBook bid sid days note t1 s).2).2.students = s.students ∧
    (∃ e : HistoryEntry,
      (returnBook bid t2 (loanBook bid sid days note t1 s).2).2.loanHistory
        = s.loanHistory ++ [e] ∧ e.loanDate ≤ e.returnDate) ∧
    (∃ bk : Book,
      getBook bid (returnBook bid t2 (loanBook bid sid days note t1 s).2).2 = some bk ∧
        bk.status = Status.available) := by
  rcases hb : getBook bid s with _ | book
  · rw [show loanBook bid sid days note t1 s = (.error .bookNotFound, s) from by
      unfold loanBook; rw [hb]] at hloan
    exact absurd hloan (by simp [Res.isOk])
  rcases hs1 : getStudent sid s with _ | stu1
  · rw [show loanBook bid sid days note t1 s = (.error .studentNotFound, s) from by
      unfold loanBook; rw [hb, hs1]] at hloan
    exact absurd hloan (by simp [Res.isOk])
  by_cases hl : book.status = Status.loaned
  · rw [show loanBook bid sid days note t1 s = (.error .bookAlreadyLoaned, s) from by
      unfold loanBook; rw [hb, hs1]; dsimp only; rw [if_pos hl]] at hloan
    exact absurd hloan (by simp [Res.isOk])
  have hav : book.status = Status.available := by
    cases hbs : book.status
    · rfl
    · exact absurd hbs hl
  have hpost1 : (loanBook bid sid days note t1 s).2
      = { s with loans := s.loans ++ [newLoan bid sid days note t1],
                 books := setFirstStatus bid Status.loaned s.books } := by
    unfold loanBook
    rw [hb, hs1]
    dsimp only
    rw [if_neg hl]
  obtain ⟨h1, h2, h3⟩ := inv_of_reachable hreach
  have hbid : book.id = bid := by simpa using List.find?_some hb
  have hbmem : book ∈ s.books := List.mem_of_find?_eq_some hb
  have hcount0 : loanCount bid s.loans = 0 := hbid ▸ (h1 book hbmem).2 hav
  have hno : ∀ x ∈ s.loans, (fun l => l.bookId == bid) x = false := by
    intro x hx
    have hxx := loanCount_eq_zero.mp hcount0 x hx
    simp [hxx]
  have hfind2 : ((loanBook bid sid days note t1 s).2).loans.find?
      (fun l => l.bookId == bid) = some (newLoan bid sid days note t1) := by
    rw [hpost1]
    show (s.loans ++ [newLoan bid sid days note t1]).find? (fun l => l.bookId == bid) = _
    rw [find?_append_right _ hno]
    simp [newLoan]
  have hpost2 : (returnBook bid t2 (loanBook bid sid days note t1 s).2).2
      = { (loanBook bid sid days note t1 s).2 with
          loanHistory := ((loanBook bid sid days note t1 s).2).loanHistory
            ++ [closeLoan (newLoan bid sid days note t1) t2],
          loans := eraseFirstLoan bid ((loanBook bid sid days note t1 s).2).loans,
          books := setFirstStatus bid Status.available
            ((loanBook bid sid days note t1 s).2).books } := by
    unfold returnBook
    rw [hfind2]
  obtain ⟨u, v, hdec, hu⟩ := find?_split hb
  have hu2 : ∀ x ∈ u, x.id ≠ bid := by
    intro x hx hxe
    have hfx := hu x hx
    rw [hxe] at hfx
    simp at hfx
  have hbooks1 : setFirstStatus bid Status.loaned s.books
      = u ++ { book with status := Status.loaned } :: v := by
    rw [hdec]
    exact setFirstStatus_append bid _ u book v hu2 hbid
  have hbooks2 : setFirstStatus bid Status.available
      (setFirstStatus bid Status.loaned s.books) = s.books := by
    rw [hbooks1,
      setFirstStatus_append bid _ u _ v hu2
        (show ({ book with status := Status.loaned } : Book).id = bid from hbid),
      hdec]
    have hbb : ({ book with status := Status.available } : Book) = book := by
      rw [← hav]
    rw [show ({ ({ book with status := Status.loaned } : Book) with
          status := Status.available } : Book)
        = ({ book with status := Status.available } : Book) from rfl, hbb]
  have hloans2 : eraseFirstLoan bid (s.loans ++ [newLoan bid sid days note t1])
      = s.loans := by
    have he := eraseFirstLoan_append bid s.loans (newLoan bid sid days note t1) []
      (fun x hx => loanCount_eq_zero.mp hcount0 x hx) rfl
    simpa using he
  have hbooksFinal : (returnBook bid t2 (loanBook bid sid days note t1 s).2).2.books
      = s.books := by
    rw [hpost2, hpost1]
    exact hbooks2
  refine ⟨hbooksFinal, ?_, ?_, ?_, ?_⟩
  · rw [hpost2, hpost1]
    exact hloans2
  · rw [hpost2, hpost1]
  · refine ⟨closeLoan (newLoan bid sid days note t1) t2, ?_, ?_⟩
    · rw [hpost2, hpost1]
    · show t1 ≤ t2
      exact ht
  · refine ⟨book, ?_, hav⟩
    show (returnBook bid t2 (loanBook bid sid days note t1 s).2).2.books.find?
        (fun b => b.id == bid) = some book
    rw [hbooksFinal]
    exact hb

/-- C3 witness: the concrete loan/return round trip on the store holding
book B001 and student 1. -/
theorem loan_return_roundtrip_witness :
    Reachable stateBS ∧
    (loanBook "B001" "1" 14 "" 2 stateBS).1.isOk = true ∧
    (returnBook "B001" 3 (loanBook "B001" "1" 14 "" 2 stateBS).2).1.isOk = true ∧
    2 ≤ 3 ∧
    ((returnBook "B001" 3 (loanBook "B001" "1" 14 "" 2 stateBS).2).2.books
        = stateBS.books ∧
      (returnBook "B001" 3 (loanBook "B001" "1" 14 "" 2 stateBS).2).2.loans
        = stateBS.loans ∧
      (returnBook "B001" 3 (loanBook "B001" "1" 14 "" 2 stateBS).2).2.students
        = stateBS.students ∧
      (∃ e : HistoryEntry,
        (returnBook "B001" 3 (loanBook "B001" "1" 14 "" 2 stateBS).2).2.loanHistory
          = stateBS.loanHistory ++ [e] ∧ e.loanDate ≤ e.returnDate) ∧
      (∃ bk : Book,
        getBook "B001" (returnBook "B001" 3 (loanBook "B001" "1" 14 "" 2 stateBS).2).2
            = some bk ∧ bk.status = Status.available)) :=
  ⟨Reachable.stepAddStudent ⟨some 1, "Kim"⟩ 1
      (Reachable.stepAddBook ⟨some "B001", "T", none, none⟩ 0 Reachable.base),
   by decide, by decide, by decide,
   loan_return_roundtrip "B001" "1" 14 "" 2 3 stateBS
     (Reachable.stepAddStudent ⟨some 1, "Kim"⟩ 1
       (Reachable.stepAddBook ⟨some "B001", "T", none, none⟩ 0 Reachable.base))
     (by decide) (by decide) (by decide)⟩

end LibraryApp
